import Mathlib

/-!
Verification of the searchable pick-list widget (`src/src/lib.rs`).

The repository is a single iced widget: a combined text-input / dropdown
pick list.  We shallowly embed the parts of `lib.rs` that the claims are
about:

* the per-instance `State` record and its operations `new`, `focus`,
  `unfocus`, `pick` (lib.rs lines 54-96);
* the event interpreter `update` (lib.rs lines 295-434);
* the shrink-to-content measurement of `layout` (lib.rs lines 254-285).

External collaborators are modelled as parameters, not reimplemented:

* the embedded text-input collaborator (`iced_native::widget::text_input`)
  keeps an opaque state of which the pick-list code observes/drives only the
  focus flag and the "cursor at end" position, so we model its state as a
  record of those two booleans, and its `update` function (called through
  the `propagate_event` closure in the source) as an arbitrary function
  `prop : TextInputState → TextInputState × List M × Status` returning the
  new text-input state, the messages it publishes to the shell, and its
  event status;
* the renderer's text measurement (`renderer.measure` followed by
  `.round() as u32`) is an arbitrary function `measure : String → Nat`;
* geometric quantities (`f32` coordinates) are modelled as rationals;
* `layout::Limits` resolution and the menu overlay are outside the claims
  and are not modelled (`State.menu` is kept as an opaque `Unit` field).
-/

/-- Event status returned by `update` (iced_native::event::Status). -/
inductive Status where
  | captured
  | ignored
deriving DecidableEq, Repr

/-- Model of `iced_native::keyboard::Modifiers`: a snapshot of the four
modifier keys. -/
structure Modifiers where
  shift : Bool
  control : Bool
  alt : Bool
  logo : Bool
deriving DecidableEq, Repr

/-- `Modifiers::command()`.  On macOS iced reads the logo key instead of
control; we model the non-macOS build, where it is the control key. -/
def Modifiers.command (m : Modifiers) : Bool := m.control

/-- The slice of the embedded text-input collaborator's state that the
pick-list code observes or drives: the focus flag (`is_focused`,
`focus`, `unfocus`) and whether the edit cursor sits at the end of the
text (`move_cursor_to_end`). -/
structure TextInputState where
  is_focused : Bool
  cursor_at_end : Bool
deriving DecidableEq, Repr

/-- `text_input::State::focus`: set the focus flag. -/
def TextInputState.focus (s : TextInputState) : TextInputState :=
  { s with is_focused := true }

/-- `text_input::State::unfocus`: clear the focus flag. -/
def TextInputState.unfocus (s : TextInputState) : TextInputState :=
  { s with is_focused := false }

/-- `text_input::State::move_cursor_to_end`. -/
def TextInputState.move_cursor_to_end (s : TextInputState) : TextInputState :=
  { s with cursor_at_end := true }

/-- The local state of a `PickList` (lib.rs lines 54-63). -/
structure State (T : Type) where
  menu : Unit
  keyboard_modifiers : Modifiers
  is_open : Bool
  hovered_option : Option Nat
  last_selection : Option T
  text_input : TextInputState
deriving DecidableEq, Repr

/-- `State::new` (lib.rs lines 67-76): all fields default. -/
def State.new {T : Type} : State T :=
  { menu := ()
    keyboard_modifiers := ⟨false, false, false, false⟩
    is_open := false
    hovered_option := none
    last_selection := none
    text_input := ⟨false, false⟩ }

/-- `State::focus` (lib.rs lines 79-81): focus the embedded text input. -/
def State.focus {T : Type} (s : State T) : State T :=
  { s with text_input := s.text_input.focus }

/-- `State::unfocus` (lib.rs lines 84-87): unfocus the embedded text input
and clear `is_open`. -/
def State.unfocus {T : Type} (s : State T) : State T :=
  { s with text_input := s.text_input.unfocus, is_open := false }

/-- `State::pick` (lib.rs lines 90-95): close, store the element in the
`last_selection` mailbox, and unfocus. -/
def State.pick {T : Type} (s : State T) (element : T) : State T :=
  State.unfocus { s with is_open := false, last_selection := some element }

/-- A 2-D point (`iced_native::Point`), coordinates as rationals. -/
structure Point where
  x : Rat
  y : Rat
deriving DecidableEq, Repr

/-- An axis-aligned rectangle (`iced_native::Rectangle`). -/
structure Rectangle where
  x : Rat
  y : Rat
  width : Rat
  height : Rat
deriving DecidableEq, Repr

/-- `Rectangle::contains`: half-open on the far edges, as in iced. -/
def Rectangle.contains (r : Rectangle) (p : Point) : Bool :=
  r.x ≤ p.x && p.x < r.x + r.width && r.y ≤ p.y && p.y < r.y + r.height

/-- Scroll delta of a wheel event (`mouse::ScrollDelta`). -/
inductive ScrollDelta where
  | lines (x y : Rat)
  | pixels (x y : Rat)
deriving DecidableEq, Repr

/-- The input events distinguished by `update`'s match (lib.rs lines
345-433).  `other` stands for every event that falls into the catch-all
arm for reasons other than being a pixel-delta scroll. -/
inductive Event where
  | mousePressedLeft
  | fingerPressed
  | wheelScrolled (delta : ScrollDelta)
  | modifiersChanged (m : Modifiers)
  | other
deriving DecidableEq, Repr

/-- Result of one `update` call: the new widget state, the messages
published to the shell (in publication order), and the event status. -/
structure UpdateResult (T M : Type) where
  state : State T
  messages : List M
  status : Status
deriving DecidableEq, Repr

/-- The `propagate_event` closure (lib.rs lines 326-343): forward the
current event to the embedded text input, whose behaviour is the
collaborator parameter `prop`.  Returns the state with the new text-input
state, the messages the text input published, and its status. -/
def propagate {T M : Type} (prop : TextInputState → TextInputState × List M × Status)
    (s : State T) : State T × List M × Status :=
  let r := prop s.text_input
  ({ s with text_input := r.1 }, r.2.1, r.2.2)

/-- `Iterator::position(|option| Some(option) == selected)` over the option
slice (lib.rs line 361). -/
def position {T : Type} [DecidableEq T] (selected : Option T) : List T → Option Nat
  | [] => none
  | x :: xs =>
    if some x = selected then some 0 else (position selected xs).map (· + 1)

/-- `find_next` (lib.rs lines 392-399): consume the iterator up to and
including the first element equal to `selected`, then return the next
element, if any. -/
def findNext {T : Type} [DecidableEq T] (selected : T) : List T → Option T
  | [] => none
  | x :: xs => if x = selected then xs.head? else findNext selected xs

/-- The primary-press / touch-down arm of `update` (lib.rs lines 346-384),
including the `last_selection` mailbox drain that runs after either
branch. -/
def updatePress {T M : Type} [DecidableEq T]
    (prop : TextInputState → TextInputState × List M × Status)
    (bounds : Rectangle) (cursor_position : Point)
    (on_selected : T → M) (selected : Option T) (options : List T)
    (on_focus : Option M) (state : State T) : UpdateResult T M :=
  let branch : State T × List M × Status :=
    if state.is_open then
      let inner : State T × List M :=
        if bounds.contains cursor_position then
          if 0 ≤ cursor_position.x ∧ 0 ≤ cursor_position.y then
            (state.unfocus, [])
          else
            let p := propagate prop state
            (p.1, p.2.1)
        else (state, [])
      (inner.1, inner.2, Status.captured)
    else if bounds.contains cursor_position then
      let s1 : State T :=
        { state with
            is_open := true
            hovered_option := position selected options }
      let s2 : State T :=
        { s1 with text_input := s1.text_input.focus.move_cursor_to_end }
      let p := propagate prop s2
      let msgs : List M :=
        p.2.1 ++ (match on_focus with
          | some m => [m]
          | none => [])
      (p.1, msgs, Status.captured)
    else (state, [], Status.ignored)
  match branch.1.last_selection with
  | some v =>
    let s2 := State.unfocus { branch.1 with last_selection := none, is_open := false }
    ⟨s2, branch.2.1 ++ [on_selected v], Status.captured⟩
  | none => ⟨branch.1, branch.2.1, branch.2.2⟩

/-- The line-delta wheel-scroll arm of `update` (lib.rs lines 385-424). -/
def updateScroll {T M : Type} [DecidableEq T]
    (bounds : Rectangle) (cursor_position : Point)
    (on_selected : T → M) (selected : Option T) (options : List T)
    (state : State T) (y : Rat) : UpdateResult T M :=
  if state.keyboard_modifiers.command && bounds.contains cursor_position
      && !state.is_open then
    let next_option : Option T :=
      if y < 0 then
        match selected with
        | some s => findNext s options
        | none => options.head?
      else if 0 < y then
        match selected with
        | some s => findNext s options.reverse
        | none => options.getLast?
      else none
    match next_option with
    | some o => ⟨state, [on_selected o], Status.captured⟩
    | none => ⟨state, [], Status.captured⟩
  else ⟨state, [], Status.ignored⟩

/-- `update` (lib.rs lines 295-434): the event interpreter.  `prop` is the
embedded text-input collaborator's update function (see `propagate`). -/
def update {T M : Type} [DecidableEq T]
    (prop : TextInputState → TextInputState × List M × Status)
    (event : Event) (bounds : Rectangle) (cursor_position : Point)
    (on_selected : T → M) (selected : Option T) (options : List T)
    (on_focus : Option M) (state : State T) : UpdateResult T M :=
  match event with
  | Event.mousePressedLeft | Event.fingerPressed =>
    updatePress prop bounds cursor_position on_selected selected options on_focus state
  | Event.wheelScrolled (ScrollDelta.lines _ y) =>
    updateScroll bounds cursor_position on_selected selected options state y
  | Event.modifiersChanged m =>
    let s1 := { state with keyboard_modifiers := m }
    let p := propagate prop s1
    ⟨p.1, p.2.1, Status.ignored⟩
  | _ =>
    let p := propagate prop state
    ⟨p.1, p.2.1, p.2.2⟩

/-- Width policy (`iced_native::Length`); only `shrink` versus the rest
matters to `layout`. -/
inductive Length where
  | fill
  | fillPortion (factor : Nat)
  | shrink
  | units (n : Nat)
deriving DecidableEq, Repr

/-- `iced_native::Padding` (u16 fields). -/
structure Padding where
  top : Nat
  right : Nat
  bottom : Nat
  left : Nat
deriving DecidableEq, Repr

/-- `Iterator::max` over the measured label widths. -/
def iterMax : List Nat → Option Nat
  | [] => none
  | x :: xs =>
    match iterMax xs with
    | none => some x
    | some m => some (max x m)

/-- The `max_width` computation of `layout` (lib.rs lines 254-276):
under the shrink policy, the maximum of the measured option labels
(default 100 when there are no options) and the measured placeholder
(default 100 when there is none); `0` under any other width policy.
`measure` models `renderer.measure` composed with `.round() as u32`. -/
def layoutMaxWidth (measure : String → Nat) (width : Length)
    (placeholder : Option String) (options : List String) : Nat :=
  match width with
  | Length.shrink =>
    let labels_width := (iterMax (options.map measure)).getD 100
    let placeholder_width := (placeholder.map measure).getD 100
    max labels_width placeholder_width
  | _ => 0

/-- The intrinsic size of `layout` (lib.rs lines 278-285), before
resolution against the incoming limits: width is the content width plus
`text_size` (icon space) plus the left padding, height is `text_size`. -/
def layoutIntrinsic (measure : String → Nat) (width : Length)
    (padding : Padding) (text_size : Nat)
    (placeholder : Option String) (options : List String) : Nat × Nat :=
  (layoutMaxWidth measure width placeholder options + text_size + padding.left,
    text_size)

/-! ## Spec-side definitions

These follow the wording of the specification, to be compared with the
definitions embedded from the source. -/

/-- Spec wording: the index of the first occurrence of `s` in `l`
("the index of the Selected Value in the option list").  Returns `l.length`
when `s` does not occur. -/
def specIndexOf {T : Type} [DecidableEq T] (s : T) : List T → Nat
  | [] => 0
  | x :: xs => if x = s then 0 else specIndexOf s xs + 1

/-- Spec wording for the hovered option on opening: "the index of the
Selected Value in the option list (or none if absent or not found)". -/
def specSelectedIndex {T : Type} [DecidableEq T]
    (selected : Option T) (options : List T) : Option Nat :=
  match selected with
  | none => none
  | some s => if s ∈ options then some (specIndexOf s options) else none

/-- Spec wording for the shrink-policy content width: the maximum of the
widest measured option (100 when the option list is empty) and the measured
placeholder (100 when there is none). -/
def specContentWidth (measure : String → Nat)
    (placeholder : Option String) (options : List String) : Nat :=
  max
    (if options.isEmpty then 100 else (options.map measure).foldr max 0)
    (match placeholder with
      | none => 100
      | some p => measure p)

/-! ## Helper lemmas -/

theorem le_iterMax_of_mem {l : List Nat} {x : Nat} (hx : x ∈ l) :
    ∃ m, iterMax l = some m ∧ x ≤ m := by
  induction l with
  | nil => cases hx
  | cons a as ih =>
    rcases List.mem_cons.mp hx with h | h
    · subst h
      cases has : iterMax as with
      | none => exact ⟨x, by simp [iterMax, has], le_refl x⟩
      | some m => exact ⟨max x m, by simp [iterMax, has], le_max_left x m⟩
    · obtain ⟨m, hm, hle⟩ := ih h
      exact ⟨max a m, by simp [iterMax, hm], le_trans hle (le_max_right a m)⟩

theorem mem_le_iterMax_getD {l : List Nat} {x : Nat} (d : Nat) (hx : x ∈ l) :
    x ≤ (iterMax l).getD d := by
  obtain ⟨m, hm, hle⟩ := le_iterMax_of_mem hx
  simp [hm, hle]

theorem iterMax_of_ne_nil {l : List Nat} (h : l ≠ []) :
    iterMax l = some (l.foldr max 0) := by
  induction l with
  | nil => exact absurd rfl h
  | cons a as ih =>
    cases as with
    | nil => simp [iterMax]
    | cons b bs =>
      rw [iterMax, ih (by simp)]
      simp [List.foldr]

theorem findNext_eq_get {T : Type} [DecidableEq T] (s : T) (l : List T) :
    findNext s l = l.get? (specIndexOf s l + 1) := by
  induction l with
  | nil => simp [findNext]
  | cons x xs ih =>
    by_cases hxs : x = s
    · cases xs <;> simp [findNext, specIndexOf, hxs]
    · simp [findNext, specIndexOf, hxs, ih]

theorem position_eq_specSelectedIndex {T : Type} [DecidableEq T]
    (selected : Option T) (options : List T) :
    position selected options = specSelectedIndex selected options := by
  cases selected with
  | none =>
    induction options with
    | nil => simp [position, specSelectedIndex]
    | cons x xs ih => simp [position, specSelectedIndex] at ih ⊢; simp [ih]
  | some s =>
    induction options with
    | nil => simp [position, specSelectedIndex]
    | cons x xs ih =>
      by_cases hxs : x = s
      · simp [position, specSelectedIndex, hxs, specIndexOf]
      · have hsx : ¬s = x := fun h => hxs h.symm
        simp [position, specSelectedIndex, specIndexOf, hxs, hsx] at ih ⊢
        by_cases hmem : s ∈ xs <;> simp [hmem] at ih ⊢ <;> simp [ih]

/-! ## Claims -/

/-- C9: for every keyboard-modifiers-changed event and every starting
state, `update` leaves `is_open` unchanged, records the new modifier
snapshot in `keyboard_modifiers`, forwards the event to the embedded text
field (its state becomes whatever the collaborator's update returns, and
the collaborator's messages are published), and always returns the ignored
status, regardless of the new modifier value. -/
theorem claim_C9_modifiers_changed {T M : Type} [DecidableEq T]
    (prop : TextInputState → TextInputState × List M × Status)
    (bounds : Rectangle) (cursor : Point) (on_selected : T → M)
    (selected : Option T) (options : List T) (on_focus : Option M)
    (state : State T) (m : Modifiers) :
    let r := update prop (Event.modifiersChanged m) bounds cursor on_selected
      selected options on_focus state
    r.state.is_open = state.is_open ∧
    r.state.keyboard_modifiers = m ∧
    r.state.text_input = (prop state.text_input).1 ∧
    r.messages = (prop state.text_input).2.1 ∧
    r.status = Status.ignored :=
  ⟨rfl, rfl, rfl, rfl, rfl⟩

/-- C10: a wheel-scroll event with a pixel-based delta never triggers the
scroll-to-cycle logic: it falls through to the catch-all arm, is forwarded
verbatim to the embedded text field, and only the text-input state changes;
the collaborator's messages and status are returned as-is.  This holds for
every state, including closed + command held + cursor over the box. -/
theorem claim_C10_pixel_scroll {T M : Type} [DecidableEq T]
    (prop : TextInputState → TextInputState × List M × Status)
    (bounds : Rectangle) (cursor : Point) (on_selected : T → M)
    (selected : Option T) (options : List T) (on_focus : Option M)
    (state : State T) (x y : Rat) :
    let r := update prop (Event.wheelScrolled (ScrollDelta.pixels x y))
      bounds cursor on_selected selected options on_focus state
    r.state = { state with text_input := (prop state.text_input).1 } ∧
    r.messages = (prop state.text_input).2.1 ∧
    r.status = (prop state.text_input).2.2 :=
  ⟨rfl, rfl, rfl⟩

/-- C4: under the shrink width policy, the intrinsic size has height
`text_size` and width `content + text_size + padding.left`, where the
content width is at least the measured width of every option and of the
placeholder, and equals the 100-unit fallback when the option list is
empty and there is no placeholder. -/
theorem claim_C4_intrinsic_size (measure : String → Nat) (padding : Padding)
    (text_size : Nat) (placeholder : Option String) (options : List String) :
    let content := layoutMaxWidth measure Length.shrink placeholder options
    let size := layoutIntrinsic measure Length.shrink padding text_size
      placeholder options
    size.2 = text_size ∧
    size.1 = content + text_size + padding.left ∧
    (∀ o ∈ options, measure o ≤ content) ∧
    (∀ p, placeholder = some p → measure p ≤ content) ∧
    (options = [] → placeholder = none → content = 100) := by
  refine ⟨rfl, rfl, ?_, ?_, ?_⟩
  · intro o ho
    have h1 : measure o ≤ (iterMax (options.map measure)).getD 100 :=
      mem_le_iterMax_getD 100 (List.mem_map_of_mem measure ho)
    exact le_trans h1 (le_max_left _ _)
  · intro p hp
    subst hp
    exact le_max_right _ _
  · intro h1 h2
    subst h1
    subst h2
    rfl

/-- C4 witness: a concrete instance of the intrinsic-size claim. -/
theorem claim_C4_intrinsic_size_witness :
    (layoutIntrinsic String.length Length.shrink ⟨5, 5, 5, 5⟩ 16 (some "pp")
      ["a", "bbb"]).2 = 16 ∧
    String.length "bbb" ≤ layoutMaxWidth String.length Length.shrink
      (some "pp") ["a", "bbb"] ∧
    String.length "pp" ≤ layoutMaxWidth String.length Length.shrink
      (some "pp") ["a", "bbb"] :=
  ⟨(claim_C4_intrinsic_size String.length ⟨5, 5, 5, 5⟩ 16 (some "pp")
      ["a", "bbb"]).1,
    (claim_C4_intrinsic_size String.length ⟨5, 5, 5, 5⟩ 16 (some "pp")
      ["a", "bbb"]).2.2.1 "bbb" (by simp),
    (claim_C4_intrinsic_size String.length ⟨5, 5, 5, 5⟩ 16 (some "pp")
      ["a", "bbb"]).2.2.2.1 "pp" rfl⟩

/-- C5 counterexample: with a single option measuring 5 units and no
placeholder, the content width is 100 (the per-source placeholder
fallback), not the widest option's measured width as the claim states. -/
theorem claim_C5_counterexample :
    layoutMaxWidth (fun _ => 5) Length.shrink none ["a"] = 100 ∧
    layoutMaxWidth (fun _ => 5) Length.shrink none ["a"] ≠ 5 := by
  exact ⟨rfl, by decide⟩

/-- C5 amended: the shrink-policy content width is the maximum of the
widest option width (defaulting to 100 when the option list is empty) and
the placeholder width (defaulting to 100 when there is no placeholder):
the 100-unit fallback applies to each source independently, not only when
both are absent. -/
theorem claim_C5_content_width (measure : String → Nat)
    (placeholder : Option String) (options : List String) :
    layoutMaxWidth measure Length.shrink placeholder options
      = specContentWidth measure placeholder options := by
  unfold layoutMaxWidth specContentWidth
  cases options with
  | nil => cases placeholder <;> simp [iterMax]
  | cons o os =>
    rw [iterMax_of_ne_nil (l := (o :: os).map measure) (by simp)]
    cases placeholder <;> simp

/-- C7 counterexample: a primary press while open, with the cursor outside
the box and an empty mailbox, still returns the captured status (the open
branch returns `Captured` unconditionally), contradicting the claim that
the handler reports the ignored status there. -/
theorem claim_C7_counterexample :
    (update (fun ti => (ti, ([] : List Nat), Status.ignored))
      Event.mousePressedLeft ⟨0, 0, 10, 10⟩ ⟨20, 20⟩ (fun t => t) none
      ([] : List Nat) none
      ⟨(), ⟨false, false, false, false⟩, true, none, none, ⟨true, false⟩⟩).status
      = Status.captured ∧
    Status.captured ≠ Status.ignored := by
  have hout : Rectangle.contains ⟨0, 0, 10, 10⟩ ⟨20, 20⟩ = false := by
    norm_num [Rectangle.contains]
  exact ⟨by simp [update, updatePress, hout], by decide⟩

/-- C7 amended: a primary press or touch-down processed while open with the
cursor outside the layout box and an empty `last_selection` mailbox leaves
the state unchanged and publishes nothing, but the status is Captured, not
Ignored: the open branch captures every press regardless of where it
lands. -/
theorem claim_C7_open_outside_press {T M : Type} [DecidableEq T]
    (prop : TextInputState → TextInputState × List M × Status)
    (event : Event) (bounds : Rectangle) (cursor : Point)
    (on_selected : T → M) (selected : Option T) (options : List T)
    (on_focus : Option M) (state : State T)
    (hev : event = Event.mousePressedLeft ∨ event = Event.fingerPressed)
    (hopen : state.is_open = true)
    (hout : bounds.contains cursor = false)
    (hsel : state.last_selection = none) :
    update prop event bounds cursor on_selected selected options on_focus
      state = ⟨state, [], Status.captured⟩ := by
  rcases hev with h | h <;> subst h <;>
    simp [update, updatePress, hopen, hout, hsel]

/-- C7 amended witness: the amended claim at a concrete input. -/
theorem claim_C7_open_outside_press_witness :
    update (fun ti => (ti, ([] : List Nat), Status.ignored))
      Event.mousePressedLeft ⟨0, 0, 10, 10⟩ ⟨20, 20⟩ (fun t => t) none
      ([] : List Nat) none
      ⟨(), ⟨false, false, false, false⟩, true, none, none, ⟨true, false⟩⟩
      = ⟨⟨(), ⟨false, false, false, false⟩, true, none, none, ⟨true, false⟩⟩,
          [], Status.captured⟩ :=
  claim_C7_open_outside_press _ _ _ _ _ _ _ _ _ (Or.inl rfl) rfl
    (by norm_num [Rectangle.contains]) rfl

/-- C8 counterexample: a line-based wheel scroll with zero vertical
magnitude, processed while closed with the command modifier held and the
cursor over the box (gating holds), returns the captured status, while the
claim requires the ignored status when no condition matched a scroll
magnitude. -/
theorem claim_C8_counterexample :
    (update (fun ti => (ti, ([] : List Nat), Status.ignored))
      (Event.wheelScrolled (ScrollDelta.lines 0 0)) ⟨0, 0, 10, 10⟩ ⟨1, 1⟩
      (fun t => t) none ([0] : List Nat) none
      ⟨(), ⟨false, true, false, false⟩, false, none, none, ⟨false, false⟩⟩).status
      = Status.captured ∧
    Status.captured ≠ Status.ignored := by
  have hin : Rectangle.contains ⟨0, 0, 10, 10⟩ ⟨1, 1⟩ = true := by
    norm_num [Rectangle.contains]
  refine ⟨?_, by decide⟩
  simp [update, updateScroll, Modifiers.command, hin]

/-- C8 amended: when the gating conditions of the line-scroll branch fail,
the event is NOT forwarded to the embedded text field: the state (text
input included) is unchanged for every collaborator behaviour, nothing is
published, and the status is Ignored.  When gating holds, the status is
Captured even when the vertical scroll magnitude is zero (and nothing is
published in that case). -/
theorem claim_C8_line_scroll_gating {T M : Type} [DecidableEq T]
    (prop : TextInputState → TextInputState × List M × Status)
    (bounds : Rectangle) (cursor : Point) (on_selected : T → M)
    (selected : Option T) (options : List T) (on_focus : Option M)
    (state : State T) (x y : Rat) :
    let r := update prop (Event.wheelScrolled (ScrollDelta.lines x y)) bounds
      cursor on_selected selected options on_focus state
    ((state.keyboard_modifiers.command && bounds.contains cursor
        && !state.is_open) = false →
      r = ⟨state, [], Status.ignored⟩) ∧
    ((state.keyboard_modifiers.command && bounds.contains cursor
        && !state.is_open) = true → y = 0 →
      r = ⟨state, [], Status.captured⟩) := by
  constructor
  · intro hgate
    simp [update, updateScroll, hgate]
  · intro hgate hy
    subst hy
    simp [update, updateScroll, hgate]

/-- C8 amended witness: both parts of the amended claim at concrete
inputs. -/
theorem claim_C8_line_scroll_gating_witness :
    update (fun ti => (ti, ([] : List Nat), Status.ignored))
      (Event.wheelScrolled (ScrollDelta.lines 0 3)) ⟨0, 0, 10, 10⟩ ⟨1, 1⟩
      (fun t => t) none ([0] : List Nat) none
      ⟨(), ⟨false, false, false, false⟩, false, none, none, ⟨false, false⟩⟩
      = ⟨⟨(), ⟨false, false, false, false⟩, false, none, none,
          ⟨false, false⟩⟩, [], Status.ignored⟩ ∧
    update (fun ti => (ti, ([] : List Nat), Status.ignored))
      (Event.wheelScrolled (ScrollDelta.lines 0 0)) ⟨0, 0, 10, 10⟩ ⟨1, 1⟩
      (fun t => t) none ([0] : List Nat) none
      ⟨(), ⟨false, true, false, false⟩, false, none, none, ⟨false, false⟩⟩
      = ⟨⟨(), ⟨false, true, false, false⟩, false, none, none,
          ⟨false, false⟩⟩, [], Status.captured⟩ :=
  ⟨(claim_C8_line_scroll_gating _ _ _ _ _ _ _ _ 0 3).1
      (by simp [Modifiers.command]),
    (claim_C8_line_scroll_gating _ _ _ _ _ _ _ _ 0 0).2
      (by norm_num [Modifiers.command, Rectangle.contains]) rfl⟩

/-- C1: for every primary press or touch-down, if the `last_selection`
mailbox holds `v`, then after handling the press in either the open or the
closed branch the handler drains the mailbox, publishes `on_selected v`,
leaves `is_open = false` with the text field unfocused, and returns the
captured status — whichever press branch ran, including a press outside
the box.  Holds for every collaborator behaviour `prop`. -/
theorem claim_C1_mailbox_drain {T M : Type} [DecidableEq T]
    (prop : TextInputState → TextInputState × List M × Status)
    (event : Event) (bounds : Rectangle) (cursor : Point)
    (on_selected : T → M) (selected : Option T) (options : List T)
    (on_focus : Option M) (state : State T) (v : T)
    (hev : event = Event.mousePressedLeft ∨ event = Event.fingerPressed)
    (hsel : state.last_selection = some v) :
    let r := update prop event bounds cursor on_selected selected options
      on_focus state
    r.state.last_selection = none ∧
    r.state.is_open = false ∧
    r.state.text_input.is_focused = false ∧
    r.status = Status.captured ∧
    on_selected v ∈ r.messages := by
  rcases hev with h | h <;> subst h <;>
    simp only [update, updatePress] <;>
    split_ifs <;>
    simp [propagate, State.unfocus, TextInputState.unfocus, hsel]

/-- C1 witness: draining the mailbox on a press that lands outside the
box. -/
theorem claim_C1_mailbox_drain_witness :
    let r := update (fun ti => (ti, ([] : List Nat), Status.ignored))
      Event.mousePressedLeft ⟨0, 0, 10, 10⟩ ⟨20, 20⟩ (fun t => t) none
      ([] : List Nat) none
      ⟨(), ⟨false, false, false, false⟩, false, none, some 7, ⟨false, false⟩⟩
    r.state.last_selection = none ∧
    r.state.is_open = false ∧
    r.state.text_input.is_focused = false ∧
    r.status = Status.captured ∧
    (7 : Nat) ∈ r.messages :=
  claim_C1_mailbox_drain _ _ _ _ _ _ _ _ _ 7 (Or.inl rfl) rfl

/-- C2: for a primary press or touch-down while closed with an empty
mailbox, and a text-field collaborator whose update does not itself change
the focus flag or the cursor-at-end flag: a press inside the box opens the
menu, focuses the text field with its cursor moved to the end, sets
`hovered_option` to the index of the selected value in the option list
(none if absent or not found), publishes the configured on-focus message,
and captures the event; a press outside the box changes nothing and is
ignored. -/
theorem claim_C2_closed_press {T M : Type} [DecidableEq T]
    (prop : TextInputState → TextInputState × List M × Status)
    (hprop : ∀ ti, ((prop ti).1).is_focused = ti.is_focused ∧
      ((prop ti).1).cursor_at_end = ti.cursor_at_end)
    (event : Event) (bounds : Rectangle) (cursor : Point)
    (on_selected : T → M) (selected : Option T) (options : List T)
    (on_focus : Option M) (state : State T)
    (hev : event = Event.mousePressedLeft ∨ event = Event.fingerPressed)
    (hopen : state.is_open = false)
    (hsel : state.last_selection = none) :
    let r := update prop event bounds cursor on_selected selected options
      on_focus state
    (bounds.contains cursor = true →
      r.state.is_open = true ∧
      r.state.text_input.is_focused = true ∧
      r.state.text_input.cursor_at_end = true ∧
      r.state.hovered_option = specSelectedIndex selected options ∧
      (∀ m, on_focus = some m → m ∈ r.messages) ∧
      r.status = Status.captured) ∧
    (bounds.contains cursor = false →
      r = ⟨state, [], Status.ignored⟩) := by
  have main :
      let r := updatePress prop bounds cursor on_selected selected options
        on_focus state
      (bounds.contains cursor = true →
        r.state.is_open = true ∧
        r.state.text_input.is_focused = true ∧
        r.state.text_input.cursor_at_end = true ∧
        r.state.hovered_option = specSelectedIndex selected options ∧
        (∀ m, on_focus = some m → m ∈ r.messages) ∧
        r.status = Status.captured) ∧
      (bounds.contains cursor = false →
        r = ⟨state, [], Status.ignored⟩) := by
    constructor
    · intro hin
      simp only [updatePress, hopen, hin, Bool.false_eq_true, if_false,
        if_true]
      simp only [propagate, hsel]
      refine ⟨trivial, ?_, ?_, ?_, ?_, trivial⟩
      · simpa [TextInputState.focus, TextInputState.move_cursor_to_end]
          using (hprop (state.text_input.focus.move_cursor_to_end)).1
      · simpa [TextInputState.focus, TextInputState.move_cursor_to_end]
          using (hprop (state.text_input.focus.move_cursor_to_end)).2
      · exact position_eq_specSelectedIndex selected options
      · intro m hm
        subst hm
        simp
    · intro hout
      simp only [updatePress, hopen, hout, Bool.false_eq_true, if_false]
      simp [hsel]
  rcases hev with h | h <;> subst h <;> exact main

/-- C2 witness: a press inside the box while closed, with selected value
`2` at index 1 of the option list. -/
theorem claim_C2_closed_press_witness :
    (update (fun ti => (ti, ([] : List Nat), Status.ignored))
      Event.mousePressedLeft ⟨0, 0, 10, 10⟩ ⟨1, 1⟩ (fun t => t) (some 2)
      [1, 2, 3] (some 99)
      ⟨(), ⟨false, false, false, false⟩, false, none, none,
        ⟨false, false⟩⟩).state.is_open = true ∧
    (update (fun ti => (ti, ([] : List Nat), Status.ignored))
      Event.mousePressedLeft ⟨0, 0, 10, 10⟩ ⟨1, 1⟩ (fun t => t) (some 2)
      [1, 2, 3] (some 99)
      ⟨(), ⟨false, false, false, false⟩, false, none, none,
        ⟨false, false⟩⟩).state.hovered_option
      = specSelectedIndex (some 2) [1, 2, 3] := by
  have h := claim_C2_closed_press
    (fun ti => (ti, ([] : List Nat), Status.ignored))
    (fun ti => ⟨rfl, rfl⟩) Event.mousePressedLeft ⟨0, 0, 10, 10⟩ ⟨1, 1⟩
    (fun t => t) (some 2) [1, 2, 3] (some 99)
    ⟨(), ⟨false, false, false, false⟩, false, none, none, ⟨false, false⟩⟩
    (Or.inl rfl) rfl rfl
  have hin : Rectangle.contains ⟨0, 0, 10, 10⟩ ⟨1, 1⟩ = true := by
    norm_num [Rectangle.contains]
  exact ⟨(h.1 hin).1, (h.1 hin).2.2.2.1⟩

/-- Helper: the line-scroll branch never changes the widget state. -/
theorem updateScroll_state_unchanged {T M : Type} [DecidableEq T]
    (bounds : Rectangle) (cursor : Point) (on_selected : T → M)
    (selected : Option T) (options : List T) (state : State T) (y : Rat) :
    (updateScroll bounds cursor on_selected selected options state y).state
      = state := by
  simp only [updateScroll]
  split_ifs <;> first
  | rfl
  | (split <;> rfl)

/-- Helper: when the scroll gate holds, the line-scroll branch publishes
exactly the message for the computed next option (none when it does not
exist) and captures the event. -/
theorem updateScroll_gate_true {T M : Type} [DecidableEq T]
    (bounds : Rectangle) (cursor : Point) (on_selected : T → M)
    (selected : Option T) (options : List T) (state : State T) (y : Rat)
    (hgate : (state.keyboard_modifiers.command && bounds.contains cursor
      && !state.is_open) = true) :
    updateScroll bounds cursor on_selected selected options state y
      = ⟨state,
          ((if y < 0 then
              match selected with
              | some s => findNext s options
              | none => options.head?
            else if 0 < y then
              match selected with
              | some s => findNext s options.reverse
              | none => options.getLast?
            else none).map on_selected).toList,
          Status.captured⟩ := by
  simp only [updateScroll]
  rw [if_pos hgate]
  split
  · rename_i o heq
    rw [heq]
    rfl
  · rename_i heq
    rw [heq]
    rfl

/-- C6: a line-based vertical wheel scroll while closed, with the command
modifier held and the cursor inside the box, leaves the state unchanged
(in particular the menu stays closed); scrolling with negative `y` selects
the option immediately after the selected one in list order (the first
option when none is selected), scrolling with positive `y` selects the
option immediately before it — i.e. immediately after it in the reversed
list — (the last option when none is selected); the `on_selected` message
is published exactly when such a next option exists, and the event is
captured. -/
theorem claim_C6_scroll_cycle {T M : Type} [DecidableEq T]
    (prop : TextInputState → TextInputState × List M × Status)
    (bounds : Rectangle) (cursor : Point) (on_selected : T → M)
    (selected : Option T) (options : List T) (on_focus : Option M)
    (state : State T) (x y : Rat)
    (hopen : state.is_open = false)
    (hcmd : state.keyboard_modifiers.command = true)
    (hin : bounds.contains cursor = true) :
    let r := update prop (Event.wheelScrolled (ScrollDelta.lines x y)) bounds
      cursor on_selected selected options on_focus state
    r.state = state ∧
    r.state.is_open = false ∧
    (y < 0 → r.messages = ((match selected with
      | some s => options.get? (specIndexOf s options + 1)
      | none => options.head?).map on_selected).toList) ∧
    (0 < y → r.messages = ((match selected with
      | some s => options.reverse.get? (specIndexOf s options.reverse + 1)
      | none => options.getLast?).map on_selected).toList) ∧
    r.status = Status.captured := by
  have hgate : (state.keyboard_modifiers.command && bounds.contains cursor
      && !state.is_open) = true := by
    simp [hcmd, hin, hopen]
  have h1 : update prop (Event.wheelScrolled (ScrollDelta.lines x y)) bounds
      cursor on_selected selected options on_focus state
      = updateScroll bounds cursor on_selected selected options state y := rfl
  rw [h1, updateScroll_gate_true bounds cursor on_selected selected options
    state y hgate]
  refine ⟨rfl, hopen, ?_, ?_, rfl⟩
  · intro hy
    have hy2 : ¬ 0 < y := by linarith
    cases selected <;> simp [hy, hy2, findNext_eq_get]
  · intro hy
    have hy2 : ¬ y < 0 := by linarith
    cases selected <;> simp [hy, hy2, findNext_eq_get]

/-- C6 witness: scrolling forward with value 20 selected out of
[10, 20, 30] publishes the message for 30. -/
theorem claim_C6_scroll_cycle_witness :
    (update (fun ti => (ti, ([] : List Nat), Status.ignored))
      (Event.wheelScrolled (ScrollDelta.lines 0 (-1))) ⟨0, 0, 10, 10⟩ ⟨1, 1⟩
      (fun t => t) (some 20) [10, 20, 30] none
      ⟨(), ⟨false, true, false, false⟩, false, none, none,
        ⟨false, false⟩⟩).messages
      = (([10, 20, 30].get? (specIndexOf 20 [10, 20, 30] + 1)).map
          (fun t => t)).toList := by
  have h := claim_C6_scroll_cycle
    (fun ti => (ti, ([] : List Nat), Status.ignored)) ⟨0, 0, 10, 10⟩ ⟨1, 1⟩
    (fun t => t) (some 20) [10, 20, 30] none
    ⟨(), ⟨false, true, false, false⟩, false, none, none, ⟨false, false⟩⟩
    0 (-1) rfl rfl (by norm_num [Rectangle.contains])
  exact h.2.2.1 (by norm_num)

/-- Helper: the press branch preserves "open implies focused" whenever the
text-field collaborator's update does not change the focus flag. -/
theorem updatePress_open_imp_focused {T M : Type} [DecidableEq T]
    (prop : TextInputState → TextInputState × List M × Status)
    (hprop : ∀ ti, ((prop ti).1).is_focused = ti.is_focused)
    (bounds : Rectangle) (cursor : Point) (on_selected : T → M)
    (selected : Option T) (options : List T) (on_focus : Option M)
    (s : State T)
    (hs : s.is_open = true → s.text_input.is_focused = true) :
    (updatePress prop bounds cursor on_selected selected options on_focus
      s).state.is_open = true →
    (updatePress prop bounds cursor on_selected selected options on_focus
      s).state.text_input.is_focused = true := by
  simp only [updatePress, propagate]
  split_ifs with h1 h2 h3 h2 <;>
    split <;>
    simp_all [State.unfocus, TextInputState.unfocus, TextInputState.focus,
      TextInputState.move_cursor_to_end]

/-- C3: every operation on the widget state preserves the invariant
"`is_open = true` implies the text field is focused" — `State.new`
satisfies it, `focus`, `pick` and every branch of `update` preserve it
(for any text-field collaborator that does not change the focus flag), and
`unfocus` clears `is_open` and the text-field focus together. -/
theorem claim_C3_invariant {T M : Type} [DecidableEq T]
    (prop : TextInputState → TextInputState × List M × Status)
    (hprop : ∀ ti, ((prop ti).1).is_focused = ti.is_focused)
    (event : Event) (bounds : Rectangle) (cursor : Point)
    (on_selected : T → M) (selected : Option T) (options : List T)
    (on_focus : Option M) (s : State T) (x : T)
    (hs : s.is_open = true → s.text_input.is_focused = true) :
    ((State.new : State T).is_open = true →
      (State.new : State T).text_input.is_focused = true) ∧
    (s.focus.is_open = true → s.focus.text_input.is_focused = true) ∧
    (s.unfocus.is_open = false ∧ s.unfocus.text_input.is_focused = false) ∧
    ((s.pick x).is_open = true → (s.pick x).text_input.is_focused = true) ∧
    ((update prop event bounds cursor on_selected selected options on_focus
        s).state.is_open = true →
      (update prop event bounds cursor on_selected selected options on_focus
        s).state.text_input.is_focused = true) := by
  refine ⟨by simp [State.new], ?_, ?_, ?_, ?_⟩
  · intro h
    simp [State.focus, TextInputState.focus]
  · simp [State.unfocus, TextInputState.unfocus]
  · simp [State.pick, State.unfocus, TextInputState.unfocus]
  · cases event with
    | mousePressedLeft =>
      exact updatePress_open_imp_focused prop hprop bounds cursor on_selected
        selected options on_focus s hs
    | fingerPressed =>
      exact updatePress_open_imp_focused prop hprop bounds cursor on_selected
        selected options on_focus s hs
    | wheelScrolled delta =>
      cases delta with
      | lines lx ly =>
        have hst : (update prop
            (Event.wheelScrolled (ScrollDelta.lines lx ly)) bounds cursor
            on_selected selected options on_focus s).state = s :=
          updateScroll_state_unchanged bounds cursor on_selected selected
            options s ly
        rw [hst]
        exact hs
      | pixels px py =>
        intro h
        have h' : s.is_open = true := h
        simpa [update, propagate, hprop] using hs h'
    | modifiersChanged m =>
      intro h
      have h' : s.is_open = true := h
      simpa [update, propagate, hprop] using hs h'
    | other =>
      intro h
      have h' : s.is_open = true := h
      simpa [update, propagate, hprop] using hs h'

/-- C3 witness: the invariant statement at a concrete state and event. -/
theorem claim_C3_invariant_witness :
    ((State.new : State Nat).is_open = true →
      (State.new : State Nat).text_input.is_focused = true) ∧
    ((State.new : State Nat).focus.is_open = true →
      (State.new : State Nat).focus.text_input.is_focused = true) ∧
    ((State.new : State Nat).unfocus.is_open = false ∧
      (State.new : State Nat).unfocus.text_input.is_focused = false) ∧
    (((State.new : State Nat).pick 5).is_open = true →
      ((State.new : State Nat).pick 5).text_input.is_focused = true) ∧
    ((update (fun ti => (ti, ([] : List Nat), Status.ignored)) Event.other
        ⟨0, 0, 10, 10⟩ ⟨1, 1⟩ (fun t => t) none [] none
        (State.new : State Nat)).state.is_open = true →
      (update (fun ti => (ti, ([] : List Nat), Status.ignored)) Event.other
        ⟨0, 0, 10, 10⟩ ⟨1, 1⟩ (fun t => t) none [] none
        (State.new : State Nat)).state.text_input.is_focused = true) :=
  claim_C3_invariant (fun ti => (ti, ([] : List Nat), Status.ignored))
    (fun ti => rfl) Event.other ⟨0, 0, 10, 10⟩ ⟨1, 1⟩ (fun t => t) none []
    none State.new 5 (by simp [State.new])
